import Mathlib

/-!
Shallow embedding of the LLM-response recovery pipeline of
`backend/app/services/review_service.py`, the fix generation of
`backend/app/services/fix_service.py`, the gateway wrapper of
`backend/app/services/ollama_service.py`, and the data model of
`backend/app/models/review.py`, together with theorems settling the
specification claims about them.

Python strings are modelled as `List Char`; each `py*` definition below
mirrors the corresponding Python `str`/`list` primitive used by the source
(`find`, `rfind`, slicing, `strip`, `split`, `replace`, `join`, `in`,
`startswith`).  `json.loads` is modelled by an executable recursive-descent
parser over the JSON grammar (integers only; float literals are outside the
model, none of the claims involve them).  Error-message strings of the
modelled library calls are stand-ins: only their flow through the pipeline
matters, never their exact wording.
-/

/-- JSON values, as produced by the modelled `json.loads`.
Python dicts appear as association lists in insertion order; lookup is
last-occurrence-wins, matching repeated-key insertion into a `dict`. -/
inductive Json where
  | null : Json
  | bool : Bool → Json
  | num : Int → Json
  | str : String → Json
  | arr : List Json → Json
  | obj : List (String × Json) → Json

instance : Inhabited Json := ⟨Json.null⟩

/-- Model of `dict.get(k)` on a parsed JSON object: the value of the last pair whose
key is `k` (later duplicate keys overwrite earlier ones in a Python dict). -/
def pyDictGet (kvs : List (String × Json)) (k : String) : Option Json :=
  match kvs with
  | [] => none
  | (k', v) :: rest =>
      match pyDictGet rest k with
      | some w => some w
      | none => if k' = k then some v else none

/-- Boolean prefix test on character lists (`p` is a prefix of `s`). -/
def listIsPfx : List Char → List Char → Bool
  | [], _ => true
  | _ :: _, [] => false
  | a :: as, b :: bs => a == b && listIsPfx as bs

/-- Index of the first occurrence of non-empty pattern `p` in `s`
(relative to the start of `s`), if any. -/
def findSubAux (p : List Char) : List Char → Option Nat
  | [] => none
  | s@(_ :: rest) =>
      if listIsPfx p s then some 0 else (findSubAux p rest).map (· + 1)

/-- Python `s.find(p, start)` for non-empty `p`: first index `≥ start`
where `p` occurs, or `-1`. -/
def pyFindFrom (s p : List Char) (start : Nat) : Int :=
  match findSubAux p (s.drop start) with
  | some k => Int.ofNat (start + k)
  | none => -1

/-- Python `p in s` (substring test, `p` non-empty). -/
def pyContains (s p : List Char) : Bool :=
  pyFindFrom s p 0 ≠ -1

/-- Index of the last occurrence of non-empty pattern `p` in `s`, if any. -/
def rFindSubAux (p : List Char) : List Char → Option Nat
  | [] => none
  | s@(_ :: rest) =>
      match (rFindSubAux p rest).map (· + 1) with
      | some j => some j
      | none => if listIsPfx p s then some 0 else none

/-- Python `s.rfind(p)` for non-empty `p`: last index where `p` occurs, or `-1`. -/
def pyRFind (s p : List Char) : Int :=
  match rFindSubAux p s with
  | some k => Int.ofNat k
  | none => -1

/-- Slice `s[a:b]` for clamped non-negative indices. -/
def pySliceNat (s : List Char) (a b : Nat) : List Char :=
  (s.take b).drop a

/-- Python slice `s[a:b]` with full int semantics (negative indices count
from the end, out-of-range indices clamp). -/
def pySlice (s : List Char) (a b : Int) : List Char :=
  let n : Int := s.length
  let norm : Int → Nat := fun i => if i < 0 then (n + i).toNat else min i.toNat s.length
  pySliceNat s (norm a) (norm b)

/-- Whitespace stripped by Python `str.strip()` (ASCII whitespace; the
source never feeds it other Unicode space characters). -/
def isStrWs (c : Char) : Bool :=
  c == ' ' || c == '\t' || c == '\n' || c == '\r' || c == '\x0b' || c == '\x0c'

/-- Python `s.strip()`. -/
def pyStrip (s : List Char) : List Char :=
  (((s.dropWhile isStrWs).reverse).dropWhile isStrWs).reverse

/-- Python `s.startswith(p)`. -/
def pyStartsWith (s p : List Char) : Bool :=
  listIsPfx p s

/-- Python `s.split(c)` for a one-character separator (the source only
splits on `'\n'`).  `"".split(c) = [""]`. -/
def pySplitChar (c : Char) : List Char → List (List Char)
  | [] => [[]]
  | x :: rest =>
      if x == c then [] :: pySplitChar c rest
      else
        match pySplitChar c rest with
        | [] => [[x]]
        | h :: t => (x :: h) :: t

/-- Python `s.split(sep, 1)` for non-empty `sep`. -/
def pySplitOnce (s sep : List Char) : List (List Char) :=
  match findSubAux sep s with
  | none => [s]
  | some i => [s.take i, s.drop (i + sep.length)]

/-- Python `s.replace(old, new)` (all non-overlapping occurrences, left to
right), for `old = o :: os`.  The fuel argument only serves structural
termination; it never runs out when initialised to the input length, as
every step consumes at least one character. -/
def pyReplaceAux (o : Char) (os new : List Char) : Nat → List Char → List Char
  | 0, s => s
  | _ + 1, [] => []
  | fuel + 1, c :: rest =>
      if c == o && listIsPfx os rest then
        new ++ pyReplaceAux o os new fuel (rest.drop os.length)
      else
        c :: pyReplaceAux o os new fuel rest

/-- Python `s.replace(old, new)`; `s.replace("", new)` is not used by the
source, so the empty-pattern case returns `s`. -/
def pyReplace (s old new : List Char) : List Char :=
  match old with
  | [] => s
  | o :: os => pyReplaceAux o os new s.length s

/-- Whitespace skipped by the JSON grammar (exactly space, tab, LF, CR). -/
def isJsonWs (c : Char) : Bool :=
  c == ' ' || c == '\t' || c == '\n' || c == '\r'

/-- Skip JSON whitespace. -/
def skipJsonWs (s : List Char) : List Char :=
  s.dropWhile isJsonWs

/-- Hex digit value, if any. -/
def hexVal (c : Char) : Option Nat :=
  if '0' ≤ c ∧ c ≤ '9' then some (c.toNat - '0'.toNat)
  else if 'a' ≤ c ∧ c ≤ 'f' then some (c.toNat - 'a'.toNat + 10)
  else if 'A' ≤ c ∧ c ≤ 'F' then some (c.toNat - 'A'.toNat + 10)
  else none

/-- Body of a JSON string literal, after the opening quote: accumulates
decoded characters (reversed) and returns the decoded string together with
the input remaining after the closing quote. -/
def parseStrBody : List Char → List Char → Except String (String × List Char)
  | _, [] => .error "Unterminated string"
  | acc, '"' :: r => .ok (String.mk acc.reverse, r)
  | acc, '\\' :: 'u' :: h1 :: h2 :: h3 :: h4 :: r3 =>
      (match hexVal h1, hexVal h2, hexVal h3, hexVal h4 with
       | some a, some b, some c, some d =>
           parseStrBody (Char.ofNat (((a * 16 + b) * 16 + c) * 16 + d) :: acc) r3
       | _, _, _, _ => .error "Invalid \\uXXXX escape")
  | acc, '\\' :: e :: r2 =>
      if e = '"' then parseStrBody ('"' :: acc) r2
      else if e = '\\' then parseStrBody ('\\' :: acc) r2
      else if e = '/' then parseStrBody ('/' :: acc) r2
      else if e = 'b' then parseStrBody ('\x08' :: acc) r2
      else if e = 'f' then parseStrBody ('\x0c' :: acc) r2
      else if e = 'n' then parseStrBody ('\n' :: acc) r2
      else if e = 'r' then parseStrBody ('\r' :: acc) r2
      else if e = 't' then parseStrBody ('\t' :: acc) r2
      else if e = 'u' then .error "Invalid \\uXXXX escape"
      else .error "Invalid \\escape"
  | _, ['\\'] => .error "Unterminated string"
  | acc, c :: r =>
      if c.toNat < 32 then .error "Invalid control character"
      else parseStrBody (c :: acc) r

/-- Digits of a decimal literal: maximal run, as in the JSON grammar
(`0` alone, or a nonzero digit followed by more digits). -/
def takeDigits : List Char → (List Char × List Char)
  | [] => ([], [])
  | c :: r =>
      if c.isDigit then
        let (ds, rest) := takeDigits r
        (c :: ds, rest)
      else ([], c :: r)

/-- Value of a digit list. -/
def digitsToNat (ds : List Char) : Nat :=
  ds.foldl (fun acc c => acc * 10 + (c.toNat - '0'.toNat)) 0

/-- A JSON integer literal at the head of the input. Float literals
(`.`/`e` continuations) are outside the model; none of the claims use them. -/
def parseNum (s : List Char) : Except String (Int × List Char) :=
  let (neg, s1) : Bool × List Char :=
    match s with
    | '-' :: r => (true, r)
    | _ => (false, s)
  match s1 with
  | c :: r =>
      if c.isDigit then
        let (ds, rest) :=
          if c = '0' then ([c], r)
          else takeDigits (c :: r)
        match rest with
        | d :: _ =>
            if d = '.' ∨ d = 'e' ∨ d = 'E' then .error "Float literals are outside this model"
            else .ok ((if neg then -(digitsToNat ds : Int) else (digitsToNat ds : Int)), rest)
        | [] => .ok ((if neg then -(digitsToNat ds : Int) else (digitsToNat ds : Int)), rest)
      else .error "Expecting value"
  | [] => .error "Expecting value"

mutual

/-- One JSON value at the head of the input (after optional whitespace),
returning it with the unconsumed remainder.  Fuel bounds recursion depth;
`pyJsonLoads` supplies enough for any input. -/
def parseVal : Nat → List Char → Except String (Json × List Char)
  | 0, _ => .error "Maximum recursion depth exceeded"
  | Nat.succ fuel, s =>
      match skipJsonWs s with
      | 'n' :: 'u' :: 'l' :: 'l' :: r => .ok (.null, r)
      | 't' :: 'r' :: 'u' :: 'e' :: r => .ok (.bool true, r)
      | 'f' :: 'a' :: 'l' :: 's' :: 'e' :: r => .ok (.bool false, r)
      | '"' :: r => (parseStrBody [] r).map (fun p => (.str p.1, p.2))
      | '\x7b' :: r => (parseObjBody fuel r).map (fun p => (.obj p.1, p.2))
      | '[' :: r => (parseArrBody fuel r).map (fun p => (.arr p.1, p.2))
      | c :: r =>
          if c = '-' ∨ c.isDigit then (parseNum (c :: r)).map (fun p => (.num p.1, p.2))
          else .error "Expecting value"
      | [] => .error "Expecting value"

/-- Object body after the opening brace. -/
def parseObjBody : Nat → List Char → Except String (List (String × Json) × List Char)
  | 0, _ => .error "Maximum recursion depth exceeded"
  | Nat.succ fuel, s =>
      match skipJsonWs s with
      | '\x7d' :: r => .ok ([], r)
      | s' => parseMembers fuel s'

/-- Non-empty member list of an object. -/
def parseMembers : Nat → List Char → Except String (List (String × Json) × List Char)
  | 0, _ => .error "Maximum recursion depth exceeded"
  | Nat.succ fuel, s =>
      match skipJsonWs s with
      | '"' :: r =>
          match parseStrBody [] r with
          | .error e => .error e
          | .ok (k, r2) =>
              match skipJsonWs r2 with
              | ':' :: r3 =>
                  match parseVal fuel r3 with
                  | .error e => .error e
                  | .ok (v, r4) =>
                      match skipJsonWs r4 with
                      | ',' :: r5 => (parseMembers fuel r5).map (fun p => ((k, v) :: p.1, p.2))
                      | '\x7d' :: r5 => .ok ([(k, v)], r5)
                      | _ => .error "Expecting ',' delimiter"
              | _ => .error "Expecting ':' delimiter"
      | _ => .error "Expecting property name enclosed in double quotes"

/-- Array body after the opening bracket. -/
def parseArrBody : Nat → List Char → Except String (List Json × List Char)
  | 0, _ => .error "Maximum recursion depth exceeded"
  | Nat.succ fuel, s =>
      match skipJsonWs s with
      | ']' :: r => .ok ([], r)
      | s' => parseItems fuel s'

/-- Non-empty item list of an array. -/
def parseItems : Nat → List Char → Except String (List Json × List Char)
  | 0, _ => .error "Maximum recursion depth exceeded"
  | Nat.succ fuel, s =>
      match parseVal fuel s with
      | .error e => .error e
      | .ok (v, r) =>
          match skipJsonWs r with
          | ',' :: r2 => (parseItems fuel r2).map (fun p => (v :: p.1, p.2))
          | ']' :: r2 => .ok ([v], r2)
          | _ => .error "Expecting ',' delimiter"

end

/-- Model of `json.loads`: parse one value, then require only whitespace
to remain. -/
def pyJsonLoads (s : List Char) : Except String Json :=
  match parseVal (4 * s.length + 16) s with
  | .error e => .error e
  | .ok (j, rest) =>
      if skipJsonWs rest = [] then .ok j else .error "Extra data"

/-- Model of the `SeverityLevel` enum of `app/models/review.py`. -/
inductive SeverityLevel where
  | critical
  | high
  | medium
  | low
  | info
deriving DecidableEq

/-- Model of the `SeverityLevel(x)` enum coercion on a string value:
`some` the member whose value is `s`, else `none` (Python raises
`ValueError`, which the per-finding handler turns into a skip). -/
def SeverityLevel.ofString (s : String) : Option SeverityLevel :=
  if s = "critical" then some .critical
  else if s = "high" then some .high
  else if s = "medium" then some .medium
  else if s = "low" then some .low
  else if s = "info" then some .info
  else none

/-- Model of the `Finding` pydantic model of `app/models/review.py`. -/
structure Finding where
  line_number : Option Int
  severity : SeverityLevel
  category : String
  title : String
  description : String
  suggestion : String
  code_snippet : Option String
  fix_code : Option String
  documentation_link : Option String
  severity_reason : Option String
  examples : Option (List String)
  best_practice : Option String
  effort_minutes : Option Int
  dimensions : Option (List (String × Json))

/-- Model of the `ReviewResponse` pydantic model of `app/models/review.py`. -/
structure ReviewResponse where
  file_path : String
  language : String
  findings : List Finding
  summary : String
  total_issues : Nat
  token_usage : Option (List (String × Json))

/-- Validation of an `Optional[int]` field value: absent or JSON null give
`None`, an integer passes through, anything else fails validation. -/
def asOptInt : Option Json → Option (Option Int)
  | none => some none
  | some .null => some none
  | some (.num n) => some (some n)
  | some _ => none

/-- Validation of a required `str` field value. -/
def asStrVal : Json → Option String
  | .str s => some s
  | _ => none

/-- Validation of an `Optional[str]` field value. -/
def asOptStr : Option Json → Option (Option String)
  | none => some none
  | some .null => some none
  | some (.str s) => some (some s)
  | some _ => none

/-- Validation of an `Optional[List[str]]` field value. -/
def asOptStrList : Option Json → Option (Option (List String))
  | none => some none
  | some .null => some none
  | some (.arr xs) =>
      (xs.mapM asStrVal).map some
  | some _ => none

/-- Validation of an `Optional[dict]` field value. -/
def asOptDict : Option Json → Option (Option (List (String × Json)))
  | none => some none
  | some .null => some none
  | some (.obj kvs) => some (some kvs)
  | some _ => none

/-- Model of one iteration of the findings loop of `parse_llm_response`
(lines 314-335): build a `Finding` from one raw record with the `f.get`
defaults of the source; any validation failure (non-dict record, unknown
severity, wrongly-typed field) is the `except: continue` path, i.e. `none`.
The severity default `"info"` applies only when the key is absent;
a present non-enum or non-string value fails this single record. -/
def mkFinding (f : Json) : Option Finding :=
  match f with
  | .obj kvs =>
      (asOptInt (pyDictGet kvs "line_number")).bind fun ln =>
      (match (pyDictGet kvs "severity").getD (.str "info") with
       | .str s => SeverityLevel.ofString s
       | _ => none).bind fun sev =>
      (asStrVal ((pyDictGet kvs "category").getD (.str "other"))).bind fun cat =>
      (asStrVal ((pyDictGet kvs "title").getD (.str ""))).bind fun title =>
      (asStrVal ((pyDictGet kvs "description").getD (.str ""))).bind fun desc =>
      (asStrVal ((pyDictGet kvs "suggestion").getD (.str ""))).bind fun sugg =>
      (asOptStr (pyDictGet kvs "code_snippet")).bind fun cs =>
      (asOptStr (pyDictGet kvs "fix_code")).bind fun fc =>
      (asOptStr (pyDictGet kvs "documentation_link")).bind fun dl =>
      (asOptStr (pyDictGet kvs "severity_reason")).bind fun sr =>
      (asOptStrList (pyDictGet kvs "examples")).bind fun ex =>
      (asOptStr (pyDictGet kvs "best_practice")).bind fun bp =>
      (asOptInt (pyDictGet kvs "effort_minutes")).bind fun em =>
      (asOptDict (pyDictGet kvs "dimensions")).bind fun dims =>
      some {
        line_number := ln, severity := sev, category := cat, title := title,
        description := desc, suggestion := sugg, code_snippet := cs,
        fix_code := fc, documentation_link := dl, severity_reason := sr,
        examples := ex, best_practice := bp, effort_minutes := em,
        dimensions := dims }
  | _ => none

/-- Model of `for f in data.get("findings", []): ...` (lines 313-335).
An absent key iterates the `[]` default; a string iterates its characters
and a dict its string keys, none of which are dicts, so every iteration
skips; a non-iterable value raises `TypeError`, caught by the outer
handler (`.error`). -/
def collectFindings : Option Json → Except Unit (List Finding)
  | none => .ok []
  | some (.arr xs) => .ok (xs.filterMap mkFinding)
  | some (.str _) => .ok []
  | some (.obj _) => .ok []
  | some .null => .error ()
  | some (.bool _) => .error ()
  | some (.num _) => .error ()

/-- The `except Exception` fallback response of `parse_llm_response`
(lines 344-353); `msg` stands for `str(e)` of the caught exception. -/
def errorReviewResponse (fp lang msg : String) : ReviewResponse :=
  { file_path := fp, language := lang, findings := [],
    summary := "Error parsing review: " ++ msg, total_issues := 0,
    token_usage := none }

/-- Construction of the success `ReviewResponse` once the findings have
been collected: `data.get("summary", "Review complete")` must validate as
a string (else pydantic raises into the outer `try`). -/
def finishSummary (findings : List Finding) (sv : Json) (fp lang : String) :
    ReviewResponse :=
  match sv with
  | .str s =>
      { file_path := fp, language := lang, findings := findings,
        summary := s, total_issues := findings.length,
        token_usage := none }
  | _ => errorReviewResponse fp lang "ValidationError"

/-- Construction of the success `ReviewResponse` from a parsed dict
(lines 313-343): a non-iterable `findings` value raises `TypeError` into
the outer `try`. -/
def buildFromKvs (kvs : List (String × Json)) (fp lang : String) : ReviewResponse :=
  match collectFindings (pyDictGet kvs "findings") with
  | .error _ => errorReviewResponse fp lang "TypeError"
  | .ok findings =>
      finishSummary findings ((pyDictGet kvs "summary").getD (.str "Review complete")) fp lang

/-- Construction of the `ReviewResponse` from parsed data (lines 313-343).
A non-dict value (impossible for a candidate that parsed from a leading
brace) would raise `AttributeError` at `data.get`, caught by the outer
`try`. -/
def buildFromData (data : Json) (fp lang : String) : ReviewResponse :=
  match data with
  | .obj kvs => buildFromKvs kvs fp lang
  | _ => errorReviewResponse fp lang "AttributeError"

/-- The `"```json"` fence marker. -/
def fenceJsonTok : List Char := "```json".toList

/-- The `"```"` fence marker. -/
def fenceTok : List Char := "```".toList

/-- Markdown fence removal of `parse_llm_response` (lines 202-216):
if a `"```json"` marker occurs, take the text up to the next `"```"`;
otherwise, if a bare `"```"` occurs, take the text up to the next `"```"`
and additionally strip a leading `"json"` tag.  When no closing marker
follows (`end > start` fails) the text is left unchanged; the `"json"`-tag
strip in the second branch applies even then, mirroring its indentation in
the source. -/
def fenceStrip (r : List Char) : List Char :=
  if pyContains r fenceJsonTok then
    let start : Int := pyFindFrom r fenceJsonTok 0 + 7
    let e : Int := pyFindFrom r fenceTok start.toNat
    if start < e then pyStrip (pySlice r start e) else r
  else if pyContains r fenceTok then
    let start : Int := pyFindFrom r fenceTok 0 + 3
    let e : Int := pyFindFrom r fenceTok start.toNat
    let r1 := if start < e then pyStrip (pySlice r start e) else r
    if pyStartsWith r1 "json".toList then pyStrip (r1.drop 4) else r1
  else r

/-- The brace-matching loop of `parse_llm_response` (lines 232-241) over
the characters from the first `'{'`: `i` is the absolute index of the head
character, `cnt` the running count; returns `i + 1` of the position where
the count returns to zero, or `none` when it never does (in which case the
source leaves `end_idx` at `start_idx`). -/
def braceScan : List Char → Nat → Int → Option Nat
  | [], _, _ => none
  | c :: rest, i, cnt =>
      if c = '\x7b' then braceScan rest (i + 1) (cnt + 1)
      else if c = '\x7d' then
        if cnt - 1 = 0 then some (i + 1) else braceScan rest (i + 1) (cnt - 1)
      else braceScan rest (i + 1) cnt

/-- Object-boundary location and balanced-brace extraction (lines 218-243):
`none` when no `'{'` exists; otherwise the slice from the first `'{'` to
the matching close, which is the empty string when the count never returns
to zero (`end_idx` stays at `start_idx`). -/
def extractCandidate (r : List Char) : Option (List Char) :=
  let i := pyFindFrom r ['\x7b'] 0
  if i = -1 then none
  else
    let si := i.toNat
    let ei :=
      match braceScan (r.drop si) si 0 with
      | some e => e
      | none => si
    some (pySliceNat r si ei)

/-- Per-line quote-escaping repair (lines 273-293): on a line containing a
`"key": "value"` pattern, escape double quotes inside the value span up to
the last line-local `",` or `"}` marker. -/
def fixLine (line : List Char) : List Char :=
  if pyContains line "\": \"".toList ∨ pyContains line "\":\"".toList then
    match pySplitOnce line "\": \"".toList with
    | [key_part, value_part] =>
        if pyContains value_part "\",".toList ∨ pyContains value_part "\"\x7d".toList then
          let ve : Int :=
            let v1 := pyRFind value_part "\",".toList
            if v1 = -1 then pyRFind value_part "\"\x7d".toList else v1
          if 0 < ve then
            let value_content := pySlice value_part 0 ve
            let rest := pySlice value_part ve (Int.ofNat value_part.length)
            key_part ++ "\": \"".toList ++
              pyReplace value_content ['"'] "\\\"".toList ++ rest
          else line
        else line
    | _ => line
  else line

/-- The "aggressive fixes" applied after a first parse failure
(lines 263-294).  Fix 1 is transcribed exactly as it appears in the
source: `replace('"', '"')` / `replace("'", "'")` — straight quote to
straight quote, despite its comment about smart quotes.  Fix 2 applies
`fixLine` per line. -/
def applyFixes (json_str : List Char) : List Char :=
  let j1 := pyReplace (pyReplace json_str ['"'] ['"']) ['"'] ['"']
  let j2 := pyReplace (pyReplace j1 ['\''] ['\'']) ['\''] ['\'']
  let ls := pySplitChar '\n' j2
  List.intercalate ['\n'] (ls.map fixLine)

/-- Strict parse, repair pass, re-parse (lines 254-311): the error carried
out is the second parse failure `e2`. -/
def recoverJson (json_str : List Char) : Except String Json :=
  match pyJsonLoads json_str with
  | .ok d => .ok d
  | .error _ =>
      match pyJsonLoads (applyFixes json_str) with
      | .ok d => .ok d
      | .error e2 => .error e2

/-- Continuation of the pipeline after the strict-parse/repair stage:
a second parse failure produces the `"JSON parsing failed: ..."`
diagnostic response (lines 300-311). -/
def afterRecover (res : Except String Json) (fp lang : String) : ReviewResponse :=
  match res with
  | .ok data => buildFromData data fp lang
  | .error e2 =>
      { file_path := fp, language := lang, findings := [],
        summary := "JSON parsing failed: " ++ e2 ++ ". Response may be truncated.",
        total_issues := 0, token_usage := none }

/-- Pipeline of `parse_llm_response` after fence removal (lines 218-353). -/
def parseAfterFence (r : List Char) (fp lang : String) : ReviewResponse :=
  match extractCandidate r with
  | none =>
      { file_path := fp, language := lang, findings := [],
        summary := "Could not find JSON in response", total_issues := 0,
        token_usage := none }
  | some json_str => afterRecover (recoverJson json_str) fp lang

/-- Model of `ReviewService.parse_llm_response` (lines 199-353). -/
def parse_llm_response (response fp lang : String) : ReviewResponse :=
  parseAfterFence (fenceStrip response.toList) fp lang

/-- Python slice `l[a:b]` on an arbitrary list, same index semantics as
`pySlice`. -/
def pySliceList {α : Type} (s : List α) (a b : Int) : List α :=
  let n : Int := s.length
  let norm : Int → Nat := fun i => if i < 0 then (n + i).toNat else min i.toNat s.length
  (s.take (norm b)).drop (norm a)

/-- Outcome of the external LLM client call inside
`OllamaService.generate_review`: either the raw client reply (text plus
token counters) or a raised exception message. -/
inductive GatewayOutcome where
  | reply (text : String) (evalCount promptEvalCount : Int)
  | exn (msg : String)

/-- Model of `OllamaService.generate_review` (lines 40-68 of
`ollama_service.py`): both on success and on failure it returns a dict. -/
def generate_review (o : GatewayOutcome) : List (String × Json) :=
  match o with
  | .reply t ec pec =>
      [("response", .str t), ("eval_count", .num ec),
       ("prompt_eval_count", .num pec), ("total_tokens", .num (ec + pec))]
  | .exn m =>
      [("response", .str ("Error generating review: " ++ m)), ("error", .bool true)]

/-- Model of `FixService.generate_fix` (lines 28-59 of `fix_service.py`).
The source binds `response` to the return value of
`self.ollama.generate_review(...)`, which is a dict, not the reply text:
`"```" in response` therefore tests dict membership over the KEYS, which
never include a backtick string, and both continuations then call a `str`
method on the dict (`response.split` / `response.strip`), raising
`AttributeError`, which the enclosing `except Exception` turns into
`None`. -/
def generate_fix (_language code_snippet : String) (_finding : Finding)
    (gateway : GatewayOutcome) : Option String :=
  if code_snippet = "" then none
  else
    let response := generate_review gateway
    if (response.map Prod.fst).contains "```" then
      none
    else
      none

/-- Model of `FixService.generate_fixes_for_findings` (lines 61-76 of
`fix_service.py`): for each finding with an in-range line number, build a
context snippet and assign `finding.fix_code`; other fields and findings
are untouched.  `gateway` supplies the external call's outcome per
finding. -/
def generate_fixes_for_findings (code_content language : String)
    (findings : List Finding) (gateway : Finding → GatewayOutcome) : List Finding :=
  let lines := pySplitChar '\n' code_content.toList
  findings.map fun finding =>
    match finding.line_number with
    | some n =>
        -- `if finding.line_number and 1 <= finding.line_number <= len(lines)`;
        -- 0 is falsy in Python and also fails `1 <= n`.
        if 1 ≤ n ∧ n ≤ lines.length then
          let start_line : Int := max 0 (n - 2)
          let end_line : Int := min (lines.length : Int) (n + 2)
          let code_snippet :=
            String.mk (List.intercalate ['\n'] (pySliceList lines start_line end_line))
          { finding with
            fix_code := generate_fix language code_snippet finding (gateway finding) }
        else finding
    | none => finding

/-- Parsed data reaching the construction stage of `parse_llm_response`,
if any: the same fence/extract/recover pipeline, stopping before response
construction. -/
def recoveredData (response : String) : Option Json :=
  match extractCandidate (fenceStrip response.toList) with
  | none => none
  | some json_str =>
      match recoverJson json_str with
      | .ok d => some d
      | .error _ => none

/-- Equality of all `Finding` fields except `fix_code`. -/
def agreesExceptFixCode (f g : Finding) : Prop :=
  f.line_number = g.line_number ∧ f.severity = g.severity ∧
  f.category = g.category ∧ f.title = g.title ∧
  f.description = g.description ∧ f.suggestion = g.suggestion ∧
  f.code_snippet = g.code_snippet ∧ f.documentation_link = g.documentation_link ∧
  f.severity_reason = g.severity_reason ∧ f.examples = g.examples ∧
  f.best_practice = g.best_practice ∧ f.effort_minutes = g.effort_minutes ∧
  f.dimensions = g.dimensions

lemma agreesExceptFixCode_refl (f : Finding) : agreesExceptFixCode f f :=
  ⟨rfl, rfl, rfl, rfl, rfl, rfl, rfl, rfl, rfl, rfl, rfl, rfl, rfl⟩

lemma agreesExceptFixCode_withFix (f : Finding) (x : Option String) :
    agreesExceptFixCode f { f with fix_code := x } :=
  ⟨rfl, rfl, rfl, rfl, rfl, rfl, rfl, rfl, rfl, rfl, rfl, rfl, rfl⟩

/-- C1: for every input string (and any file path and language), the
response-recovery parser terminates with a well-formed `ReviewResponse`
echoing the file path and language, with no token usage attached; it is a
total function of its input, so no exception can reach its caller (every
fallible library operation is modelled explicitly and every path below
produces a tagged success or diagnostic-failure response). -/
theorem parse_llm_response_totality (s fp lang : String) :
    (parse_llm_response s fp lang).file_path = fp ∧
    (parse_llm_response s fp lang).language = lang ∧
    (parse_llm_response s fp lang).token_usage = none := by
  unfold parse_llm_response parseAfterFence afterRecover buildFromData buildFromKvs finishSummary errorReviewResponse
  repeat' split
  all_goals exact ⟨rfl, rfl, rfl⟩

/-- C2: every `ReviewResponse` produced by the parser has
`total_issues` equal to the length of its findings list, whatever
`total_issues` value the model's raw JSON carried (that raw value is never
read: the constructed field is `len(findings)` on the success path and `0`
with empty findings on every failure path). -/
theorem total_issues_eq_length_findings (s fp lang : String) :
    (parse_llm_response s fp lang).total_issues =
      (parse_llm_response s fp lang).findings.length := by
  unfold parse_llm_response parseAfterFence afterRecover buildFromData buildFromKvs finishSummary errorReviewResponse
  repeat' split
  all_goals rfl

/-- C5: `generate_fix` never returns a fix at all — not only on an empty
snippet or a failed gateway call, but on every gateway reply, because the
source treats the dict returned by `generate_review` as the reply string:
the fence test inspects dict keys and the subsequent `str` method call on
the dict raises, which the handler converts to `None`.  This contradicts
the claim's (and the source's own comments') intended fence-extraction
behaviour. -/
theorem generate_fix_returns_none_always (language code_snippet : String)
    (finding : Finding) (gateway : GatewayOutcome) :
    generate_fix language code_snippet finding gateway = none := by
  unfold generate_fix
  split
  · rfl
  · simp only [ite_self]

/-- C7: the "smart quote" repair is transcribed in the source as
`replace('"', '"')` / `replace("'", "'")` — straight quote to straight
quote, a no-op contradicting its own comment.  At a curly-quoted but
otherwise valid object the whole repair pass returns its input unchanged,
the parse fails, and the pipeline reports a diagnostic failure, while the
same object with straight quotes parses successfully. -/
theorem smart_quote_repair_noop_bug :
    applyFixes ("\x7b“a”: “b”\x7d".toList) = "\x7b“a”: “b”\x7d".toList ∧
    (parse_llm_response "\x7b“a”: “b”\x7d" "a.py" "python").findings = [] ∧
    (parse_llm_response "\x7b“a”: “b”\x7d" "a.py" "python").summary =
      "JSON parsing failed: Expecting property name enclosed in double quotes. Response may be truncated." ∧
    (parse_llm_response "\x7b\"a\": \"b\"\x7d" "a.py" "python").summary = "Review complete" :=
  ⟨rfl, rfl, rfl, rfl⟩

lemma pySliceNat_self (r : List Char) (i : Nat) : pySliceNat r i i = [] := by
  unfold pySliceNat
  apply List.drop_eq_nil_of_le
  simp [List.length_take]

/-- C3 (counterexample): on the truncated input `{"a": 1` the extraction
stage does NOT select the text from the first brace to the end of input —
`end_idx` is left at `start_idx`, so the candidate is the empty string —
and the pipeline consequently reports the parser's empty-input message,
not the message the strict parse produces on the full tail. -/
theorem truncated_candidate_counterexample :
    extractCandidate ("\x7b\"a\": 1".toList) = some [] ∧
    ("\x7b\"a\": 1".toList ≠ ([] : List Char)) ∧
    (parse_llm_response "\x7b\"a\": 1" "a.py" "python").summary =
      "JSON parsing failed: Expecting value. Response may be truncated." ∧
    pyJsonLoads ("\x7b\"a\": 1".toList) = .error "Expecting ',' delimiter" := by
  refine ⟨rfl, ?_, rfl, rfl⟩
  decide

/-- C3 (amended): whenever the fence-stripped text contains a `{` but the
brace count never returns to zero, the selected candidate is the EMPTY
string (the source leaves `end_idx` at `start_idx`), the strict parse then
fails on that empty candidate, and the pipeline reports the parse-failure
diagnostic built from the empty-candidate parser error. -/
theorem truncated_input_empty_candidate (s fp lang : String) (i : Nat)
    (h1 : pyFindFrom (fenceStrip s.toList) ['\x7b'] 0 = Int.ofNat i)
    (h2 : braceScan ((fenceStrip s.toList).drop i) i 0 = none) :
    extractCandidate (fenceStrip s.toList) = some [] ∧
    parse_llm_response s fp lang =
      { file_path := fp, language := lang, findings := [],
        summary := "JSON parsing failed: Expecting value. Response may be truncated.",
        total_issues := 0, token_usage := none } := by
  have hti : (Int.ofNat i).toNat = i := rfl
  have hne : Int.ofNat i ≠ -1 := by
    simp only [Int.ofNat_eq_coe]
    omega
  have hcand : extractCandidate (fenceStrip s.toList) = some [] := by
    simp only [extractCandidate, h1, hti, h2, pySliceNat_self]
    rw [if_neg hne]
  refine ⟨hcand, ?_⟩
  unfold parse_llm_response parseAfterFence
  rw [hcand]
  rfl

/-- Witness for the amended C3 theorem at the concrete input `{unclosed`. -/
theorem truncated_input_empty_candidate_witness :
    extractCandidate (fenceStrip "\x7bunclosed".toList) = some [] ∧
    parse_llm_response "\x7bunclosed" "a.py" "python" =
      { file_path := "a.py", language := "python", findings := [],
        summary := "JSON parsing failed: Expecting value. Response may be truncated.",
        total_issues := 0, token_usage := none } :=
  truncated_input_empty_candidate "\x7bunclosed" "a.py" "python" 0 rfl rfl


lemma append3_ne_empty (a e b : String) (ha : 0 < a.length) : a ++ e ++ b ≠ "" := by
  intro h
  have hlen := congrArg String.length h
  simp only [String.length_append] at hlen
  rw [show ("" : String).length = 0 from rfl] at hlen
  omega

lemma finishSummary_summary_empty (fs : List Finding) (sv : Json) (fp lang : String)
    (h : (finishSummary fs sv fp lang).summary = "") : sv = Json.str "" := by
  cases sv with
  | str s => exact congrArg Json.str (show s = "" from h)
  | null => exact absurd (show "Error parsing review: " ++ "ValidationError" = "" from h) (by decide)
  | bool b => exact absurd (show "Error parsing review: " ++ "ValidationError" = "" from h) (by decide)
  | num n => exact absurd (show "Error parsing review: " ++ "ValidationError" = "" from h) (by decide)
  | arr xs => exact absurd (show "Error parsing review: " ++ "ValidationError" = "" from h) (by decide)
  | obj kvs => exact absurd (show "Error parsing review: " ++ "ValidationError" = "" from h) (by decide)

lemma buildFromKvs_summary_empty (kvs : List (String × Json)) (fp lang : String)
    (h : (buildFromKvs kvs fp lang).summary = "") :
    pyDictGet kvs "summary" = some (Json.str "") := by
  unfold buildFromKvs at h
  cases hF : collectFindings (pyDictGet kvs "findings") with
  | error u =>
      rw [hF] at h
      exact absurd (show "Error parsing review: " ++ "TypeError" = "" from h) (by decide)
  | ok fs =>
      rw [hF] at h
      have h3 := finishSummary_summary_empty fs
        ((pyDictGet kvs "summary").getD (.str "Review complete")) fp lang h
      cases hG : pyDictGet kvs "summary" with
      | none =>
          rw [hG] at h3
          simp only [Option.getD_none, Json.str.injEq] at h3
          exact absurd h3 (by decide)
      | some v =>
          rw [hG] at h3
          simp only [Option.getD_some] at h3
          rw [h3]

lemma buildFromData_summary_empty (d : Json) (fp lang : String)
    (h : (buildFromData d fp lang).summary = "") :
    ∃ kvs, d = Json.obj kvs ∧ pyDictGet kvs "summary" = some (Json.str "") := by
  cases d with
  | obj kvs => exact ⟨kvs, rfl, buildFromKvs_summary_empty kvs fp lang h⟩
  | null => exact absurd (show "Error parsing review: " ++ "AttributeError" = "" from h) (by decide)
  | bool b => exact absurd (show "Error parsing review: " ++ "AttributeError" = "" from h) (by decide)
  | num n => exact absurd (show "Error parsing review: " ++ "AttributeError" = "" from h) (by decide)
  | str t => exact absurd (show "Error parsing review: " ++ "AttributeError" = "" from h) (by decide)
  | arr xs => exact absurd (show "Error parsing review: " ++ "AttributeError" = "" from h) (by decide)

lemma afterRecover_summary_empty (res : Except String Json) (fp lang : String)
    (h : (afterRecover res fp lang).summary = "") :
    ∃ kvs, res = .ok (Json.obj kvs) ∧ pyDictGet kvs "summary" = some (Json.str "") := by
  cases res with
  | error e2 =>
      exact absurd
        (show "JSON parsing failed: " ++ e2 ++ ". Response may be truncated." = "" from h)
        (append3_ne_empty _ _ _ (by decide))
  | ok d =>
      obtain ⟨kvs, hd, hG⟩ := buildFromData_summary_empty d fp lang h
      exact ⟨kvs, by rw [hd], hG⟩

lemma parseAfterFence_summary_empty (r : List Char) (fp lang : String)
    (h : (parseAfterFence r fp lang).summary = "") :
    ∃ kvs js, extractCandidate r = some js ∧ recoverJson js = .ok (Json.obj kvs) ∧
      pyDictGet kvs "summary" = some (Json.str "") := by
  unfold parseAfterFence at h
  cases hE : extractCandidate r with
  | none =>
      rw [hE] at h
      exact absurd (show "Could not find JSON in response" = "" from h) (by decide)
  | some js =>
      rw [hE] at h
      have h2 : (afterRecover (recoverJson js) fp lang).summary = "" := h
      obtain ⟨kvs, hR, hG⟩ := afterRecover_summary_empty (recoverJson js) fp lang h2
      exact ⟨kvs, js, rfl, hR, hG⟩

/-- C8 (counterexample): the model's JSON may itself supply an empty
`summary` string, in which case the constructed response's summary is
empty — the claim that every produced summary is a non-empty string
fails. -/
theorem empty_model_summary_counterexample :
    (parse_llm_response "\x7b\"summary\": \"\"\x7d" "a.py" "python").summary = "" := rfl

/-- C8 (amended): whenever a produced summary is the empty string, the
pipeline parsed the model's JSON successfully and that JSON itself mapped
`"summary"` to the empty string; on every failure path, and when the key
is absent, the summary is a non-empty diagnostic or the non-empty default
`"Review complete"`. -/
theorem summary_nonempty_unless_model_supplies_empty (s fp lang : String)
    (h : (parse_llm_response s fp lang).summary = "") :
    ∃ kvs, recoveredData s = some (Json.obj kvs) ∧
      pyDictGet kvs "summary" = some (Json.str "") := by
  obtain ⟨kvs, js, hE, hR, hG⟩ :=
    parseAfterFence_summary_empty (fenceStrip s.toList) fp lang h
  refine ⟨kvs, ?_, hG⟩
  simp only [recoveredData, hE, hR]

/-- Witness for the amended C8 theorem at the concrete input
`{"summary": ""}`. -/
theorem summary_nonempty_unless_model_supplies_empty_witness :
    ∃ kvs, recoveredData "\x7b\"summary\": \"\"\x7d" = some (Json.obj kvs) ∧
      pyDictGet kvs "summary" = some (Json.str "") :=
  summary_nonempty_unless_model_supplies_empty "\x7b\"summary\": \"\"\x7d" "a.py" "python" rfl

lemma mkFinding_none_of_bad_severity (kvs : List (String × Json)) (sv : String)
    (hsev : pyDictGet kvs "severity" = some (Json.str sv))
    (hbad : SeverityLevel.ofString sv = none) :
    mkFinding (Json.obj kvs) = none := by
  simp only [mkFinding, hsev, Option.getD_some, hbad, Option.none_bind]
  cases asOptInt (pyDictGet kvs "line_number") <;> rfl

lemma filterMap_length_all_isSome {α β : Type} (g : α → Option β) :
    ∀ l : List α, (∀ a ∈ l, (g a).isSome = true) → (l.filterMap g).length = l.length := by
  intro l
  induction l with
  | nil => intro _; rfl
  | cons x xs ih =>
      intro hall
      obtain ⟨y, hy⟩ := Option.isSome_iff_exists.mp (hall x (List.mem_cons_self x xs))
      simp only [List.filterMap_cons, hy, List.length_cons]
      exact congrArg (· + 1) (ih (fun a ha => hall a (List.mem_cons_of_mem x ha)))

/-- C4: in a findings array consisting of valid records except for a
single record whose severity string is outside the enum, normalization
keeps every valid record in its original relative order and drops exactly
the malformed one: the batch is not aborted and the output length is
`N - 1`. -/
theorem invalid_severity_drops_single_record (pre post : List Json)
    (kvs : List (String × Json)) (sv : String)
    (hpre : ∀ f ∈ pre, (mkFinding f).isSome = true)
    (hpost : ∀ f ∈ post, (mkFinding f).isSome = true)
    (hsev : pyDictGet kvs "severity" = some (Json.str sv))
    (hbad : SeverityLevel.ofString sv = none) :
    collectFindings (some (Json.arr (pre ++ Json.obj kvs :: post))) =
      .ok (pre.filterMap mkFinding ++ post.filterMap mkFinding) ∧
    (pre.filterMap mkFinding ++ post.filterMap mkFinding).length =
      pre.length + post.length := by
  have hbadf := mkFinding_none_of_bad_severity kvs sv hsev hbad
  constructor
  · show Except.ok ((pre ++ Json.obj kvs :: post).filterMap mkFinding) = _
    rw [List.filterMap_append, List.filterMap_cons, hbadf]
  · rw [List.length_append, filterMap_length_all_isSome mkFinding pre hpre,
      filterMap_length_all_isSome mkFinding post hpost]

/-- Witness for the C4 theorem on a three-record array whose middle record
carries the unknown severity string `"urgent"`. -/
theorem invalid_severity_drops_single_record_witness :
    collectFindings (some (Json.arr
        ([Json.obj [("title", Json.str "a")]] ++
          Json.obj [("severity", Json.str "urgent")] ::
          [Json.obj [("title", Json.str "b")]]))) =
      .ok ([Json.obj [("title", Json.str "a")]].filterMap mkFinding ++
        [Json.obj [("title", Json.str "b")]].filterMap mkFinding) ∧
    ([Json.obj [("title", Json.str "a")]].filterMap mkFinding ++
      [Json.obj [("title", Json.str "b")]].filterMap mkFinding).length =
      [Json.obj [("title", Json.str "a")]].length +
        [Json.obj [("title", Json.str "b")]].length :=
  invalid_severity_drops_single_record
    [Json.obj [("title", Json.str "a")]] [Json.obj [("title", Json.str "b")]]
    [("severity", Json.str "urgent")] "urgent"
    (by decide) (by decide) rfl rfl

/-- C10: a raw record with NO `"severity"` key at all (as opposed to an
unknown severity string) is kept: `f.get("severity", "info")` yields the
default `"info"`, the enum coercion succeeds, and — provided the other
fields validate — the constructed `Finding` carries severity `info`. -/
theorem missing_severity_defaults_to_info (kvs : List (String × Json))
    (ln : Option Int) (cat title desc sugg : String)
    (cs fc dl sr bp : Option String) (ex : Option (List String))
    (em : Option Int) (dims : Option (List (String × Json)))
    (hsev : pyDictGet kvs "severity" = none)
    (h1 : asOptInt (pyDictGet kvs "line_number") = some ln)
    (h2 : asStrVal ((pyDictGet kvs "category").getD (Json.str "other")) = some cat)
    (h3 : asStrVal ((pyDictGet kvs "title").getD (Json.str "")) = some title)
    (h4 : asStrVal ((pyDictGet kvs "description").getD (Json.str "")) = some desc)
    (h5 : asStrVal ((pyDictGet kvs "suggestion").getD (Json.str "")) = some sugg)
    (h6 : asOptStr (pyDictGet kvs "code_snippet") = some cs)
    (h7 : asOptStr (pyDictGet kvs "fix_code") = some fc)
    (h8 : asOptStr (pyDictGet kvs "documentation_link") = some dl)
    (h9 : asOptStr (pyDictGet kvs "severity_reason") = some sr)
    (h10 : asOptStrList (pyDictGet kvs "examples") = some ex)
    (h11 : asOptStr (pyDictGet kvs "best_practice") = some bp)
    (h12 : asOptInt (pyDictGet kvs "effort_minutes") = some em)
    (h13 : asOptDict (pyDictGet kvs "dimensions") = some dims) :
    mkFinding (Json.obj kvs) = some
      { line_number := ln, severity := SeverityLevel.info, category := cat,
        title := title, description := desc, suggestion := sugg,
        code_snippet := cs, fix_code := fc, documentation_link := dl,
        severity_reason := sr, examples := ex, best_practice := bp,
        effort_minutes := em, dimensions := dims } := by
  simp only [mkFinding, hsev, h1, h2, h3, h4, h5, h6, h7, h8, h9, h10, h11,
    h12, h13, Option.getD_none, Option.some_bind]
  rfl

/-- Witness for the C10 theorem at the concrete record
`{"line_number": 3}` (no severity key). -/
theorem missing_severity_defaults_to_info_witness :
    mkFinding (Json.obj [("line_number", Json.num 3)]) = some
      { line_number := some 3, severity := SeverityLevel.info, category := "other",
        title := "", description := "", suggestion := "",
        code_snippet := none, fix_code := none, documentation_link := none,
        severity_reason := none, examples := none, best_practice := none,
        effort_minutes := none, dimensions := none } :=
  missing_severity_defaults_to_info [("line_number", Json.num 3)]
    (some 3) "other" "" "" "" none none none none none none none none
    rfl rfl rfl rfl rfl rfl rfl rfl rfl rfl rfl rfl rfl rfl

/-- C9: batch fix generation only ever sets the `fix_code` field of each
finding: the output list has the same findings in the same order, and
every field other than `fix_code` of every finding is unchanged. -/
theorem generate_fixes_only_sets_fix_code (code_content language : String)
    (findings : List Finding) (gateway : Finding → GatewayOutcome) :
    List.Forall₂ agreesExceptFixCode findings
      (generate_fixes_for_findings code_content language findings gateway) := by
  unfold generate_fixes_for_findings
  induction findings with
  | nil => exact List.Forall₂.nil
  | cons f fs ih =>
      refine List.Forall₂.cons ?_ ih
      dsimp only
      cases hn : f.line_number with
      | none => exact agreesExceptFixCode_refl f
      | some n =>
          dsimp only
          by_cases hc : 1 ≤ n ∧ n ≤ ((pySplitChar '\n' code_content.toList).length : Int)
          · rw [if_pos hc]
            exact ⟨hn, rfl, rfl, rfl, rfl, rfl, rfl, rfl, rfl, rfl, rfl, rfl, rfl⟩
          · rw [if_neg hc]
            exact agreesExceptFixCode_refl f

lemma listIsPfx_append_self (p r : List Char) : listIsPfx p (p ++ r) = true := by
  induction p with
  | nil => rfl
  | cons a as ih => simp [listIsPfx, List.cons_append, ih]

lemma listIsPfx_head_ne (a b : Char) (as bs : List Char) (h : a ≠ b) :
    listIsPfx (a :: as) (b :: bs) = false := by
  have hb : (a == b) = false := beq_eq_false_iff_ne.mpr h
  simp [listIsPfx, hb]

lemma findSubAux_self_append (p r : List Char) (hp : p ≠ []) :
    findSubAux p (p ++ r) = some 0 := by
  cases p with
  | nil => exact absurd rfl hp
  | cons a as =>
      have hpfx : listIsPfx (a :: as) (a :: (as ++ r)) = true :=
        listIsPfx_append_self (a :: as) r
      simp [findSubAux, hpfx]

lemma findSubAux_none_of_nohead (h : Char) (ps : List Char) :
    ∀ s : List Char, (∀ c ∈ s, c ≠ h) → findSubAux (h :: ps) s = none := by
  intro s
  induction s with
  | nil => intro _; rfl
  | cons c rest ih =>
      intro hs
      have hch : h ≠ c := fun he => hs c (List.mem_cons_self c rest) he.symm
      simp [findSubAux, listIsPfx_head_ne h c ps rest hch,
        ih (fun d hd => hs d (List.mem_cons_of_mem c hd))]

lemma findSubAux_skip_then_hit (h : Char) (ps : List Char) :
    ∀ (u t : List Char), (∀ c ∈ u, c ≠ h) → listIsPfx (h :: ps) t = true →
      findSubAux (h :: ps) (u ++ t) = some u.length := by
  intro u
  induction u with
  | nil =>
      intro t _ hhit
      cases t with
      | nil => simp [listIsPfx] at hhit
      | cons c r => simp [findSubAux, hhit]
  | cons c u' ih =>
      intro t hu hhit
      have hch : h ≠ c := fun he => hu c (List.mem_cons_self c u') he.symm
      simp [findSubAux, listIsPfx_head_ne h c ps _ hch,
        ih t (fun d hd => hu d (List.mem_cons_of_mem c hd)) hhit]

lemma braceScan_shift : ∀ (s : List Char) (i : Nat) (cnt : Int),
    braceScan s (i + 1) cnt = (braceScan s i cnt).map (· + 1) := by
  intro s
  induction s with
  | nil => intro i cnt; rfl
  | cons c rest ih =>
      intro i cnt
      by_cases h1 : c = '\x7b'
      · simp [braceScan, h1, ih (i + 1)]
      · by_cases h2 : c = '\x7d'
        · by_cases h3 : cnt - 1 = 0
          · simp [braceScan, h1, h2, h3]
          · simp [braceScan, h1, h2, h3, ih (i + 1)]
        · simp [braceScan, h1, h2, ih (i + 1)]

lemma braceScan_nobrace_none : ∀ (w : List Char) (i : Nat) (cnt : Int),
    (∀ c ∈ w, c ≠ '\x7b' ∧ c ≠ '\x7d') → braceScan w i cnt = none := by
  intro w
  induction w with
  | nil => intro i cnt _; rfl
  | cons c rest ih =>
      intro i cnt hw
      obtain ⟨h1, h2⟩ := hw c (List.mem_cons_self c rest)
      simp [braceScan, h1, h2, ih (i + 1) cnt (fun d hd => hw d (List.mem_cons_of_mem c hd))]

lemma braceScan_append_nobrace : ∀ (x w : List Char) (i : Nat) (cnt : Int),
    (∀ c ∈ w, c ≠ '\x7b' ∧ c ≠ '\x7d') →
      braceScan (x ++ w) i cnt = braceScan x i cnt := by
  intro x
  induction x with
  | nil =>
      intro w i cnt hw
      simp [braceScan_nobrace_none w i cnt hw, braceScan]
  | cons c rest ih =>
      intro w i cnt hw
      by_cases h1 : c = '\x7b'
      · simp [braceScan, h1, ih w (i + 1) (cnt + 1) hw]
      · by_cases h2 : c = '\x7d'
        · by_cases h3 : cnt - 1 = 0
          · simp [braceScan, h1, h2, h3]
          · simp [braceScan, h1, h2, h3, ih w (i + 1) (cnt - 1) hw]
        · simp [braceScan, h1, h2, ih w (i + 1) cnt hw]

lemma braceScan_le : ∀ (s : List Char) (i : Nat) (cnt : Int) (e : Nat),
    braceScan s i cnt = some e → e ≤ i + s.length := by
  intro s
  induction s with
  | nil => intro i cnt e h; exact absurd h (by simp [braceScan])
  | cons c rest ih =>
      intro i cnt e h
      by_cases h1 : c = '\x7b'
      · have := ih (i + 1) (cnt + 1) e (by simpa [braceScan, h1] using h)
        simp only [List.length_cons]
        omega
      · by_cases h2 : c = '\x7d'
        · by_cases h3 : cnt - 1 = 0
          · have he : i + 1 = e := by simpa [braceScan, h1, h2, h3] using h
            simp only [List.length_cons]
            omega
          · have := ih (i + 1) (cnt - 1) e (by simpa [braceScan, h1, h2, h3] using h)
            simp only [List.length_cons]
            omega
        · have := ih (i + 1) cnt e (by simpa [braceScan, h1, h2] using h)
          simp only [List.length_cons]
          omega

lemma natCast_ne_negOne (m : Nat) : ((m : Nat) : Int) ≠ -1 := by omega

lemma listIsPfx_singleton (ch c : Char) (xs : List Char) :
    listIsPfx [ch] (c :: xs) = (ch == c) := by
  simp [listIsPfx]

lemma findSubAux_singleton_cons (ch c : Char) (xs : List Char) :
    findSubAux [ch] (c :: xs) =
      if ch = c then some 0 else (findSubAux [ch] xs).map (· + 1) := by
  by_cases hc : ch = c <;>
    simp [findSubAux, listIsPfx_singleton, hc]

lemma findSubAux_lt_length (p : List Char) :
    ∀ (s : List Char) (k : Nat), findSubAux p s = some k → k < s.length := by
  intro s
  induction s with
  | nil => intro k h; exact absurd h (by simp [findSubAux])
  | cons c rest ih =>
      intro k h
      unfold findSubAux at h
      by_cases hp : listIsPfx p (c :: rest)
      · rw [if_pos hp] at h
        have h0 : 0 = k := Option.some.inj h
        simp only [List.length_cons]
        omega
      · rw [if_neg hp] at h
        cases hf : findSubAux p rest with
        | none => rw [hf] at h; exact absurd h (by simp)
        | some k' =>
            rw [hf] at h
            have hk : k' + 1 = k := by simpa using h
            have hlt := ih k' hf
            simp only [List.length_cons]
            omega

lemma findSubAux_append_of_some (ch : Char) :
    ∀ (r w : List Char) (k : Nat),
      findSubAux [ch] r = some k → findSubAux [ch] (r ++ w) = some k := by
  intro r
  induction r with
  | nil => intro w k h; exact absurd h (by simp [findSubAux])
  | cons c r' ih =>
      intro w k h
      rw [findSubAux_singleton_cons] at h
      rw [List.cons_append, findSubAux_singleton_cons]
      by_cases hc : ch = c
      · rw [if_pos hc] at h
        rw [if_pos hc]
        exact h
      · rw [if_neg hc] at h
        rw [if_neg hc]
        cases hf : findSubAux [ch] r' with
        | none => rw [hf] at h; exact absurd h (by simp)
        | some k' =>
            rw [hf] at h
            rw [ih w k' hf]
            exact h

lemma findSubAux_append_of_none (ch : Char) :
    ∀ (r w : List Char),
      findSubAux [ch] r = none → findSubAux [ch] w = none →
        findSubAux [ch] (r ++ w) = none := by
  intro r
  induction r with
  | nil => intro w _ hw; simpa using hw
  | cons c r' ih =>
      intro w h hw
      rw [findSubAux_singleton_cons] at h
      rw [List.cons_append, findSubAux_singleton_cons]
      by_cases hc : ch = c
      · rw [if_pos hc] at h; exact absurd h (by simp)
      · rw [if_neg hc] at h
        rw [if_neg hc]
        cases hf : findSubAux [ch] r' with
        | some k' => rw [hf] at h; exact absurd h (by simp)
        | none => rw [ih w hf hw]; rfl

lemma extractCandidate_cons_ne (c : Char) (r : List Char) (hc : c ≠ '\x7b') :
    extractCandidate (c :: r) = extractCandidate r := by
  have hfa : findSubAux ['\x7b'] (c :: r) = (findSubAux ['\x7b'] r).map (· + 1) := by
    rw [findSubAux_singleton_cons, if_neg (fun he => hc he.symm)]
  cases hf : findSubAux ['\x7b'] r with
  | none =>
      have h1 : pyFindFrom (c :: r) ['\x7b'] 0 = -1 := by
        simp [pyFindFrom, hfa, hf]
      have h2 : pyFindFrom r ['\x7b'] 0 = -1 := by
        simp [pyFindFrom, hf]
      simp [extractCandidate, h1, h2]
  | some k =>
      have h1 : pyFindFrom (c :: r) ['\x7b'] 0 = ((k + 1 : Nat) : Int) := by
        simp [pyFindFrom, hfa, hf]
      have h2 : pyFindFrom r ['\x7b'] 0 = ((k : Nat) : Int) := by
        simp [pyFindFrom, hf]
      simp only [extractCandidate, h1, h2]
      rw [if_neg (natCast_ne_negOne (k + 1)), if_neg (natCast_ne_negOne k)]
      have ht1 : ((k + 1 : Nat) : Int).toNat = k + 1 := rfl
      have ht2 : ((k : Nat) : Int).toNat = k := rfl
      rw [ht1, ht2, List.drop_succ_cons, braceScan_shift]
      cases hb : braceScan (r.drop k) k 0 with
      | none => simp [pySliceNat_self]
      | some e => simp [pySliceNat, List.take_succ_cons, List.drop_succ_cons]

lemma extractCandidate_append_ws (r w : List Char)
    (hw : ∀ c ∈ w, isStrWs c = true) :
    extractCandidate (r ++ w) = extractCandidate r := by
  have hwchars : ∀ c ∈ w, c ≠ '\x7b' ∧ c ≠ '\x7d' := by
    intro c hcw
    constructor <;> (intro he; subst he; exact absurd (hw _ hcw) (by decide))
  cases hf : findSubAux ['\x7b'] r with
  | none =>
      have hfw : findSubAux ['\x7b'] w = none := by
        apply findSubAux_none_of_nohead
        intro c hcw he
        subst he
        exact absurd (hw _ hcw) (by decide)
      have hall := findSubAux_append_of_none '\x7b' r w hf hfw
      simp [extractCandidate, pyFindFrom, hf, hall]
  | some k =>
      have hall := findSubAux_append_of_some '\x7b' r w k hf
      have hk_lt : k < r.length := findSubAux_lt_length ['\x7b'] r k hf
      have h1 : pyFindFrom (r ++ w) ['\x7b'] 0 = ((k : Nat) : Int) := by
        simp [pyFindFrom, hall]
      have h2 : pyFindFrom r ['\x7b'] 0 = ((k : Nat) : Int) := by
        simp [pyFindFrom, hf]
      simp only [extractCandidate, h1, h2]
      rw [if_neg (natCast_ne_negOne k)]
      have ht : ((k : Nat) : Int).toNat = k := rfl
      rw [ht]
      rw [List.drop_append_of_le_length (Nat.le_of_lt hk_lt)]
      rw [braceScan_append_nobrace (r.drop k) w k 0 hwchars]
      cases hb : braceScan (r.drop k) k 0 with
      | none => simp [pySliceNat_self]
      | some e =>
          have hle := braceScan_le (r.drop k) k 0 e hb
          have he : e ≤ r.length := by
            simp only [List.length_drop] at hle
            omega
          simp [pySliceNat, List.take_append_of_le_length he]

lemma extractCandidate_dropWhile (r : List Char) :
    extractCandidate (r.dropWhile isStrWs) = extractCandidate r := by
  induction r with
  | nil => rfl
  | cons c r' ih =>
      by_cases hc : isStrWs c
      · rw [List.dropWhile_cons_of_pos hc,
          extractCandidate_cons_ne c r' (fun he => by subst he; exact absurd hc (by decide))]
        exact ih
      · rw [List.dropWhile_cons_of_neg hc]

lemma extractCandidate_strip (r : List Char) :
    extractCandidate (pyStrip r) = extractCandidate r := by
  unfold pyStrip
  have hsplit :
      ((r.dropWhile isStrWs).reverse.dropWhile isStrWs).reverse ++
        ((r.dropWhile isStrWs).reverse.takeWhile isStrWs).reverse =
        r.dropWhile isStrWs := by
    rw [← List.reverse_append, List.takeWhile_append_dropWhile, List.reverse_reverse]
  have hwssuffix :
      ∀ c ∈ ((r.dropWhile isStrWs).reverse.takeWhile isStrWs).reverse,
        isStrWs c = true := by
    intro c hcm
    rw [List.mem_reverse] at hcm
    exact List.mem_takeWhile_imp hcm
  calc extractCandidate (((r.dropWhile isStrWs).reverse.dropWhile isStrWs).reverse)
      = extractCandidate
          (((r.dropWhile isStrWs).reverse.dropWhile isStrWs).reverse ++
            ((r.dropWhile isStrWs).reverse.takeWhile isStrWs).reverse) :=
        (extractCandidate_append_ws _ _ hwssuffix).symm
    _ = extractCandidate (r.dropWhile isStrWs) := by rw [hsplit]
    _ = extractCandidate r := extractCandidate_dropWhile r

lemma parseAfterFence_strip (r : List Char) (fp lang : String) :
    parseAfterFence (pyStrip r) fp lang = parseAfterFence r fp lang := by
  unfold parseAfterFence
  rw [extractCandidate_strip]

lemma toList_append (s t : String) : (s ++ t).toList = s.toList ++ t.toList := by
  cases s
  cases t
  rfl

lemma pyStrip_cons_ws (c : Char) (s : List Char) (hc : isStrWs c = true) :
    pyStrip (c :: s) = pyStrip s := by
  unfold pyStrip
  rw [List.dropWhile_cons_of_pos hc]

lemma pyStrip_append_ws (s : List Char) (c : Char) (hc : isStrWs c = true) :
    pyStrip (s ++ [c]) = pyStrip s := by
  unfold pyStrip
  rw [List.dropWhile_append]
  by_cases hd : (s.dropWhile isStrWs).isEmpty
  · rw [if_pos hd]
    rw [List.isEmpty_iff.mp hd]
    rw [List.dropWhile_cons_of_pos hc]
    rfl
  · rw [if_neg hd]
    rw [List.reverse_append]
    simp only [List.reverse_cons, List.reverse_nil, List.nil_append, List.singleton_append]
    rw [List.dropWhile_cons_of_pos hc]

lemma fenceStrip_no_bq (r : List Char) (hb : ∀ c ∈ r, c ≠ '\x60') :
    fenceStrip r = r := by
  have h7 : findSubAux fenceJsonTok r = none :=
    findSubAux_none_of_nohead '\x60' "``json".toList r hb
  have h3 : findSubAux fenceTok r = none :=
    findSubAux_none_of_nohead '\x60' "``".toList r hb
  have hc7 : pyContains r fenceJsonTok = false := by
    simp [pyContains, pyFindFrom, h7]
  have hc3 : pyContains r fenceTok = false := by
    simp [pyContains, pyFindFrom, h3]
  unfold fenceStrip
  rw [if_neg (by simp [hc7]), if_neg (by simp [hc3])]

lemma nl_wrap_no_bq (tl : List Char) (hb : ∀ c ∈ tl, c ≠ '\x60') :
    ∀ c ∈ ('\n' :: (tl ++ ['\n'])), c ≠ '\x60' := by
  intro c hc
  rcases List.mem_cons.mp hc with h | h
  · subst h; decide
  · rcases List.mem_append.mp h with h2 | h2
    · exact hb c h2
    · have h3 := List.mem_singleton.mp h2
      subst h3; decide

lemma findSubAux_f7_skip :
    ∀ (u : List Char), (∀ c ∈ u, c ≠ '\x60') →
      findSubAux fenceJsonTok (u ++ fenceTok) = none := by
  intro u
  induction u with
  | nil => intro _; decide
  | cons c u' ih =>
      intro hu
      have hc : '\x60' ≠ c :=
        fun he => hu c (List.mem_cons_self c u') he.symm
      have hp : listIsPfx fenceJsonTok (c :: (u' ++ fenceTok)) = false :=
        listIsPfx_head_ne '\x60' c "``json".toList _ hc
      simp [findSubAux, hp, ih (fun d hd => hu d (List.mem_cons_of_mem c hd))]

lemma findSubAux_f7_untagged (X : List Char)
    (hX : findSubAux fenceJsonTok X = none) :
    findSubAux fenceJsonTok ('\x60' :: '\x60' :: '\x60' :: '\n' :: X) = none := by
  have e1 : listIsPfx fenceJsonTok ('\x60' :: '\x60' :: '\x60' :: '\n' :: X) = false := by
    simp [listIsPfx]
  have e2 : listIsPfx fenceJsonTok ('\x60' :: '\x60' :: '\n' :: X) = false := by
    simp [listIsPfx]
  have e3 : listIsPfx fenceJsonTok ('\x60' :: '\n' :: X) = false := by
    simp [listIsPfx]
  have e4 : listIsPfx fenceJsonTok ('\n' :: X) = false := by
    simp [listIsPfx]
  simp [findSubAux, e1, e2, e3, e4, hX]

lemma fenceStrip_tagged (tl : List Char) (hb : ∀ c ∈ tl, c ≠ '\x60') :
    fenceStrip (fenceJsonTok ++ '\n' :: (tl ++ '\n' :: fenceTok)) = pyStrip tl := by
  set W := fenceJsonTok ++ '\n' :: (tl ++ '\n' :: fenceTok) with hW
  have hu := nl_wrap_no_bq tl hb
  have hf70 : findSubAux fenceJsonTok W = some 0 :=
    findSubAux_self_append _ _ (by decide)
  have hfind7 : pyFindFrom W fenceJsonTok 0 = ((0 : Nat) : Int) := by
    simp [pyFindFrom, hf70]
  have hcont7 : pyContains W fenceJsonTok = true := by
    simp [pyContains, hfind7]
  have hdrop : W.drop 7 = ('\n' :: (tl ++ ['\n'])) ++ fenceTok := by
    rw [hW, show (7 : Nat) = fenceJsonTok.length from rfl, List.drop_left]
    simp [List.append_assoc]
  have hfs : findSubAux fenceTok (W.drop 7) = some ('\n' :: (tl ++ ['\n'])).length := by
    rw [hdrop]
    exact findSubAux_skip_then_hit '\x60' "``".toList _ _ hu (by decide)
  have hulen : ('\n' :: (tl ++ ['\n'])).length = tl.length + 2 := by simp
  have hfind3 : pyFindFrom W fenceTok 7 = ((tl.length + 9 : Nat) : Int) := by
    simp only [pyFindFrom, hfs, hulen, Int.ofNat_eq_coe]
    omega
  have hWlen : W.length = tl.length + 12 := by
    rw [hW]
    simp only [List.length_append, List.length_cons,
      show fenceJsonTok.length = 7 from rfl, show fenceTok.length = 3 from rfl]
    omega
  unfold fenceStrip
  rw [if_pos hcont7]
  dsimp only
  rw [hfind7, show (((0 : Nat) : Int) + 7).toNat = 7 from rfl, hfind3]
  rw [if_pos (by omega : ((0 : Nat) : Int) + 7 < ((tl.length + 9 : Nat) : Int))]
  have hslice : pySlice W (((0 : Nat) : Int) + 7) ((tl.length + 9 : Nat) : Int) =
      '\n' :: (tl ++ ['\n']) := by
    unfold pySlice
    dsimp only
    rw [if_neg (show ¬(((0 : Nat) : Int) + 7 < 0) from by omega),
      if_neg (show ¬(((tl.length + 9 : Nat) : Int) < 0) from by omega)]
    rw [show (((0 : Nat) : Int) + 7).toNat = 7 from rfl]
    rw [show (((tl.length + 9 : Nat) : Int)).toNat = tl.length + 9 from rfl]
    rw [hWlen]
    rw [show min 7 (tl.length + 12) = 7 from by omega]
    rw [show min (tl.length + 9) (tl.length + 12) = tl.length + 9 from by omega]
    unfold pySliceNat
    have hWassoc : W = (fenceJsonTok ++ ('\n' :: (tl ++ ['\n']))) ++ fenceTok := by
      rw [hW]
      simp [List.append_assoc]
    rw [hWassoc]
    rw [List.take_left' (show (fenceJsonTok ++ ('\n' :: (tl ++ ['\n']))).length = tl.length + 9 from by
      simp only [List.length_append, List.length_cons, List.length_nil,
        show fenceJsonTok.length = 7 from rfl]
      omega)]
    rw [show (7 : Nat) = fenceJsonTok.length from rfl, List.drop_left]
  rw [hslice]
  rw [pyStrip_cons_ws '\n' (tl ++ ['\n']) (by decide), pyStrip_append_ws tl '\n' (by decide)]

lemma fenceStrip_untagged (tl : List Char) (hb : ∀ c ∈ tl, c ≠ '\x60')
    (hhead : ∃ rest, pyStrip tl = '\x7b' :: rest) :
    fenceStrip (fenceTok ++ '\n' :: (tl ++ '\n' :: fenceTok)) = pyStrip tl := by
  set W := fenceTok ++ '\n' :: (tl ++ '\n' :: fenceTok) with hW
  have hu := nl_wrap_no_bq tl hb
  have hXassoc : tl ++ '\n' :: fenceTok = (tl ++ ['\n']) ++ fenceTok := by
    simp [List.append_assoc]
  have h7W : findSubAux fenceJsonTok W = none := by
    show findSubAux fenceJsonTok
      ('\x60' :: '\x60' :: '\x60' :: '\n' :: (tl ++ '\n' :: fenceTok)) = none
    apply findSubAux_f7_untagged
    rw [hXassoc]
    apply findSubAux_f7_skip
    intro c hc
    rcases List.mem_append.mp hc with h2 | h2
    · exact hb c h2
    · have h3 := List.mem_singleton.mp h2
      subst h3; decide
  have hcont7 : pyContains W fenceJsonTok = false := by
    simp [pyContains, pyFindFrom, h7W]
  have hf30 : findSubAux fenceTok W = some 0 :=
    findSubAux_self_append _ _ (by decide)
  have hfind30 : pyFindFrom W fenceTok 0 = ((0 : Nat) : Int) := by
    simp [pyFindFrom, hf30]
  have hcont3 : pyContains W fenceTok = true := by
    simp [pyContains, hfind30]
  have hdrop : W.drop 3 = ('\n' :: (tl ++ ['\n'])) ++ fenceTok := by
    rw [hW, show (3 : Nat) = fenceTok.length from rfl, List.drop_left]
    simp [List.append_assoc]
  have hfs : findSubAux fenceTok (W.drop 3) = some ('\n' :: (tl ++ ['\n'])).length := by
    rw [hdrop]
    exact findSubAux_skip_then_hit '\x60' "``".toList _ _ hu (by decide)
  have hulen : ('\n' :: (tl ++ ['\n'])).length = tl.length + 2 := by simp
  have hfind3 : pyFindFrom W fenceTok 3 = ((tl.length + 5 : Nat) : Int) := by
    simp only [pyFindFrom, hfs, hulen, Int.ofNat_eq_coe]
    omega
  have hWlen : W.length = tl.length + 8 := by
    rw [hW]
    simp only [List.length_append, List.length_cons,
      show fenceTok.length = 3 from rfl]
    omega
  unfold fenceStrip
  rw [if_neg (show ¬(pyContains W fenceJsonTok = true) from by simp [hcont7])]
  rw [if_pos hcont3]
  dsimp only
  rw [hfind30, show (((0 : Nat) : Int) + 3).toNat = 3 from rfl, hfind3]
  rw [if_pos (by omega : ((0 : Nat) : Int) + 3 < ((tl.length + 5 : Nat) : Int))]
  have hslice : pySlice W (((0 : Nat) : Int) + 3) ((tl.length + 5 : Nat) : Int) =
      '\n' :: (tl ++ ['\n']) := by
    unfold pySlice
    dsimp only
    rw [if_neg (show ¬(((0 : Nat) : Int) + 3 < 0) from by omega),
      if_neg (show ¬(((tl.length + 5 : Nat) : Int) < 0) from by omega)]
    rw [show (((0 : Nat) : Int) + 3).toNat = 3 from rfl]
    rw [show (((tl.length + 5 : Nat) : Int)).toNat = tl.length + 5 from rfl]
    rw [hWlen]
    rw [show min 3 (tl.length + 8) = 3 from by omega]
    rw [show min (tl.length + 5) (tl.length + 8) = tl.length + 5 from by omega]
    unfold pySliceNat
    have hWassoc : W = (fenceTok ++ ('\n' :: (tl ++ ['\n']))) ++ fenceTok := by
      rw [hW]
      simp [List.append_assoc]
    rw [hWassoc]
    rw [List.take_left' (show (fenceTok ++ ('\n' :: (tl ++ ['\n']))).length = tl.length + 5 from by
      simp only [List.length_append, List.length_cons, List.length_nil,
        show fenceTok.length = 3 from rfl]
      omega)]
    rw [show (3 : Nat) = fenceTok.length from rfl, List.drop_left]
  rw [hslice]
  rw [pyStrip_cons_ws '\n' (tl ++ ['\n']) (by decide), pyStrip_append_ws tl '\n' (by decide)]
  obtain ⟨rest, hrest⟩ := hhead
  rw [hrest]
  rw [if_neg (show ¬(pyStartsWith ('\x7b' :: rest) "json".toList = true) from by
    simp [pyStartsWith, listIsPfx])]

lemma jsonWs_strWs (c : Char) (h : isJsonWs c = true) : isStrWs c = true := by
  simp only [isJsonWs, Bool.or_eq_true, beq_iff_eq] at h
  rcases h with ((h1 | h1) | h1) | h1 <;> subst h1 <;> decide

lemma dropWhile_str_of_skipJson :
    ∀ (s rest : List Char), skipJsonWs s = '\x7b' :: rest →
      s.dropWhile isStrWs = '\x7b' :: rest := by
  intro s
  induction s with
  | nil => intro rest h; exact absurd h (by simp [skipJsonWs])
  | cons c s' ih =>
      intro rest h
      unfold skipJsonWs at h
      by_cases hc : isJsonWs c
      · rw [List.dropWhile_cons_of_pos hc] at h
        rw [List.dropWhile_cons_of_pos (jsonWs_strWs c hc)]
        exact ih rest h
      · rw [List.dropWhile_cons_of_neg hc] at h
        injection h with h1 h2
        subst h1
        subst h2
        rw [List.dropWhile_cons_of_neg (by decide)]

lemma strip_head_brace (s rest : List Char)
    (h : s.dropWhile isStrWs = '\x7b' :: rest) :
    ∃ rest', pyStrip s = '\x7b' :: rest' := by
  unfold pyStrip
  rw [h, List.reverse_cons, List.dropWhile_append]
  by_cases hd : (rest.reverse.dropWhile isStrWs).isEmpty
  · rw [if_pos hd]
    exact ⟨[], rfl⟩
  · rw [if_neg hd]
    rw [List.reverse_append]
    exact ⟨(rest.reverse.dropWhile isStrWs).reverse, by simp⟩

lemma parseVal_ok_obj_head (fuel : Nat) (s : List Char)
    (kvs : List (String × Json)) (rest0 : List Char)
    (h : parseVal (fuel + 1) s = .ok (Json.obj kvs, rest0)) :
    ∃ r, skipJsonWs s = '\x7b' :: r := by
  unfold parseVal at h
  split at h
  · exact absurd h (by simp)
  · exact absurd h (by simp)
  · exact absurd h (by simp)
  · cases hsb : parseStrBody [] _ with
    | error e => rw [hsb] at h; exact absurd h (by simp [Except.map])
    | ok p => rw [hsb] at h; exact absurd h (by simp [Except.map])
  · next r heq => exact ⟨r, heq⟩
  · cases hab : parseArrBody fuel _ with
    | error e => rw [hab] at h; exact absurd h (by simp [Except.map])
    | ok p => rw [hab] at h; exact absurd h (by simp [Except.map])
  · split at h
    · cases hn : parseNum _ with
      | error e => rw [hn] at h; exact absurd h (by simp [Except.map])
      | ok p => rw [hn] at h; exact absurd h (by simp [Except.map])
    · exact absurd h (by simp)
  · exact absurd h (by simp)

lemma loads_obj_head (s : List Char) (kvs : List (String × Json))
    (h : pyJsonLoads s = .ok (Json.obj kvs)) :
    ∃ rest, skipJsonWs s = '\x7b' :: rest := by
  unfold pyJsonLoads at h
  cases hp : parseVal (4 * s.length + 16) s with
  | error e => rw [hp] at h; exact absurd h (by simp)
  | ok pr =>
      obtain ⟨j, rest0⟩ := pr
      rw [hp] at h
      have h2 : (if skipJsonWs rest0 = [] then (Except.ok j : Except String Json)
          else .error "Extra data") = .ok (Json.obj kvs) := h
      by_cases hws : skipJsonWs rest0 = []
      · rw [if_pos hws] at h2
        have hj : j = Json.obj kvs := by injection h2
        subst hj
        exact parseVal_ok_obj_head (4 * s.length + 15) s kvs rest0 hp
      · rw [if_neg hws] at h2
        exact absurd h2 (by simp)

/-- C6 (counterexample): fence idempotence fails when the JSON object
itself contains a triple-backtick sequence inside a string value: the
fence stripper cuts at the backticks inside the value, truncating the
candidate, while the unwrapped object parses fine. -/
theorem fence_wrap_counterexample :
    (parse_llm_response "```json\n\x7b\"a\": \"```\"\x7d\n```" "a.py" "python").summary =
      "JSON parsing failed: Expecting value. Response may be truncated." ∧
    (parse_llm_response "\x7b\"a\": \"```\"\x7d" "a.py" "python").summary = "Review complete" ∧
    ("JSON parsing failed: Expecting value. Response may be truncated." : String) ≠
      "Review complete" := by
  refine ⟨rfl, rfl, ?_⟩
  decide

/-- C6 (amended): for a valid JSON object text containing no backtick
characters, wrapping it in a fenced code block — with a `json` tag or with
no tag — yields exactly the same parsed result as the unwrapped text. -/
theorem fence_wrap_preserves_parse (J fp lang : String)
    (hb : ∀ c ∈ J.toList, c ≠ '\x60')
    (hv : ∃ kvs, pyJsonLoads J.toList = .ok (Json.obj kvs)) :
    parse_llm_response ("```json\n" ++ J ++ "\n```") fp lang =
      parse_llm_response J fp lang ∧
    parse_llm_response ("```\n" ++ J ++ "\n```") fp lang =
      parse_llm_response J fp lang := by
  obtain ⟨kvs, hvv⟩ := hv
  obtain ⟨rest, hws⟩ := loads_obj_head J.toList kvs hvv
  have hdw := dropWhile_str_of_skipJson J.toList rest hws
  have hstrip := strip_head_brace J.toList rest hdw
  have hJ : fenceStrip J.toList = J.toList := fenceStrip_no_bq J.toList hb
  constructor
  · have hlist : ("```json\n" ++ J ++ "\n```").toList
        = fenceJsonTok ++ '\n' :: (J.toList ++ '\n' :: fenceTok) := by
      rw [toList_append, toList_append]
      simp [fenceJsonTok, fenceTok]
    unfold parse_llm_response
    rw [hlist, fenceStrip_tagged J.toList hb, hJ]
    exact parseAfterFence_strip J.toList fp lang
  · have hlist : ("```\n" ++ J ++ "\n```").toList
        = fenceTok ++ '\n' :: (J.toList ++ '\n' :: fenceTok) := by
      rw [toList_append, toList_append]
      simp [fenceTok]
    unfold parse_llm_response
    rw [hlist, fenceStrip_untagged J.toList hb hstrip, hJ]
    exact parseAfterFence_strip J.toList fp lang

/-- Witness for the amended C6 theorem at the concrete object `{"k": 5}`. -/
theorem fence_wrap_preserves_parse_witness :
    parse_llm_response ("```json\n" ++ "\x7b\"k\": 5\x7d" ++ "\n```") "a.py" "python" =
      parse_llm_response "\x7b\"k\": 5\x7d" "a.py" "python" ∧
    parse_llm_response ("```\n" ++ "\x7b\"k\": 5\x7d" ++ "\n```") "a.py" "python" =
      parse_llm_response "\x7b\"k\": 5\x7d" "a.py" "python" :=
  fence_wrap_preserves_parse "\x7b\"k\": 5\x7d" "a.py" "python"
    (by decide) ⟨[("k", Json.num 5)], rfl⟩
